import Mathlib

/-!
Shallow embedding of the block-based page layout editor
(`src/types.ts`, `src/App.tsx`, `src/components/BlockRenderer.tsx`).

Blocks form an ordered list; the editor reorders them via drag/drop
(swap for image-onto-image, splice-based insert otherwise), recomputes a
derived per-text-row image counter after structural changes, persists the
document as a versioned payload, and clamps image crop heights during a
resize gesture.  JavaScript arrays are modelled as `List`, JS objects'
optional fields as `Option`, the JS `Record<string, number>` counter map
as a total function `String → Nat` (reads in the source use `|| 0`, so a
missing key and the default `0` are indistinguishable), and pixel
quantities as `Int`.
-/

namespace LayoutEditor

/-- `BlockType` from `src/types.ts`. -/
inductive BlockType where
  | IMAGE
  | TEXT_ROW
  | TITLE
  deriving DecidableEq

/-- `Block` from `src/types.ts`: `content` is the image URL or main text,
`subContent` the secondary text of text rows, `height` the optional crop
height of images. -/
structure Block where
  id : String
  type : BlockType
  content : String
  subContent : Option String := none
  height : Option Int := none
  deriving DecidableEq

instance : Inhabited Block := ⟨⟨"", BlockType.TITLE, "", none, none⟩⟩

/-- One step of pass 1 of `recalculateCounts` (`App.tsx` lines 45–52):
state is the current text-row id (`null` modelled as `none`; the JS
truthiness test on the id also rejects the empty string) together with the
counter map. -/
def countStep (st : Option String × (String → Nat)) (block : Block) :
    Option String × (String → Nat) :=
  if block.type = BlockType.TEXT_ROW then
    (some block.id, Function.update st.2 block.id 0)
  else if block.type = BlockType.IMAGE then
    match st.1 with
    | some tid =>
        if tid = "" then st
        else (some tid, Function.update st.2 tid (st.2 tid + 1))
    | none => st
  else st

/-- The counter map produced by pass 1 of `recalculateCounts`. -/
def countsOf (currentBlocks : List Block) : String → Nat :=
  (currentBlocks.foldl countStep (none, fun _ => 0)).2

/-- The template string `` `好评${count}次` `` of `App.tsx` line 58. -/
def formatCount (count : Nat) : String :=
  "好评" ++ toString count ++ "次"

/-- Pass 2 of `recalculateCounts` (`App.tsx` lines 55–64), applied to one
block: text rows get the freshly formatted counter as `subContent`, and a
block already carrying that exact string is returned untouched. -/
def applyCount (counts : String → Nat) (block : Block) : Block :=
  if block.type = BlockType.TEXT_ROW then
    let newSubContent := formatCount (counts block.id)
    if block.subContent ≠ some newSubContent then
      { block with subContent := some newSubContent }
    else block
  else block

/-- `recalculateCounts` (`App.tsx` lines 40–65). -/
def recalculateCounts (currentBlocks : List Block) : List Block :=
  currentBlocks.map (applyCount (countsOf currentBlocks))

/-- JS `arr.splice(start, 1)` restricted to its effect on the array:
the element at `start` is removed (no-op when out of range). -/
def spliceRemoveOne (l : List Block) (start : Nat) : List Block :=
  l.take start ++ l.drop (start + 1)

/-- JS `arr.splice(start, 0, ...items)`: `items` inserted before index
`start` (a `start` past the end appends, as in JS). -/
def spliceInsert (l : List Block) (start : Nat) (items : List Block) :
    List Block :=
  l.take start ++ items ++ l.drop start

/-- The updater applied by the internal branch of `handleBlockDrop`
(`App.tsx` lines 282–314): swap when source and target blocks are both
images, otherwise remove the source and re-insert it before the target,
subtracting 1 from the insertion index when moving downwards.  Indices
out of range (impossible in the UI, where both come from rendered blocks)
leave the list unchanged. -/
def blockDropInternalReorder (blocks : List Block) (S T : Nat) :
    List Block :=
  match blocks.get? S, blocks.get? T with
  | some sourceBlock, some targetBlock =>
      if sourceBlock.type = BlockType.IMAGE ∧
          targetBlock.type = BlockType.IMAGE then
        (blocks.set S targetBlock).set T sourceBlock
      else
        spliceInsert (spliceRemoveOne blocks S)
          (if S < T then T - 1 else T) [sourceBlock]
  | _, _ => blocks

/-- The internal branch of `handleBlockDrop` including the
`setBlocksWithCount` wrapper: guarded by `draggedBlockIndex !== dropIndex`,
then reorder and re-run `recalculateCounts`. -/
def handleBlockDropInternal (blocks : List Block) (S T : Nat) :
    List Block :=
  if S = T then blocks
  else recalculateCounts (blockDropInternalReorder blocks S T)

/-- A dropped external file: its MIME type and the object URL that
`URL.createObjectURL` yields for it. -/
structure JsFile where
  ftype : String
  url : String
  deriving DecidableEq

/-- The `file.type.startsWith('image/')` filter, stated on the character
sequence of the MIME type. -/
def isImageFile (f : JsFile) : Bool :=
  "image/".data.isPrefixOf f.ftype.data

/-- Fresh image blocks built from the image-typed files of a drop
(`App.tsx` lines 263–269); `idGen n` stands for the `generateId()` call
made for the `n`-th created block. -/
def mkImageBlocks (files : List JsFile) (idGen : Nat → String) :
    List Block :=
  (files.filter isImageFile).enum.map
    (fun p => { id := idGen p.1, type := BlockType.IMAGE, content := p.2.url })

/-- External-file branch of `handleBlockDrop` (`App.tsx` lines 262–279):
image files become new blocks spliced in before `dropIndex`, followed by
`recalculateCounts`; when no image file is present nothing happens. -/
def handleBlockDropExternal (blocks : List Block) (dropIndex : Nat)
    (files : List JsFile) (idGen : Nat → String) : List Block :=
  let newBlocks := mkImageBlocks files idGen
  if newBlocks.isEmpty then blocks
  else recalculateCounts (spliceInsert blocks dropIndex newBlocks)

/-- External-file branch of `handleContainerDrop` (`App.tsx` lines
325–335): image files are appended at the end. -/
def handleContainerDropExternal (blocks : List Block)
    (files : List JsFile) (idGen : Nat → String) : List Block :=
  let newBlocks := mkImageBlocks files idGen
  if newBlocks.isEmpty then blocks
  else recalculateCounts (blocks ++ newBlocks)

/-- Internal branch of `handleContainerDrop` (`App.tsx` lines 336–343):
the dragged block is moved to the end. -/
def handleContainerDropInternal (blocks : List Block) (S : Nat) :
    List Block :=
  match blocks.get? S with
  | some movedItem => recalculateCounts (spliceRemoveOne blocks S ++ [movedItem])
  | none => recalculateCounts blocks

/-- `addTextRow` (`App.tsx` lines 97–104); `id` stands for the
`generateId()` result. -/
def addTextRow (blocks : List Block) (id : String) : List Block :=
  recalculateCounts (blocks ++
    [{ id := id, type := BlockType.TEXT_ROW, content := "新文本",
       subContent := some "好评0次" }])

/-- `addTitleRow` (`App.tsx` lines 106–112).  Note that it calls plain
`setBlocks`, not `setBlocksWithCount`: no recalculation happens. -/
def addTitleRow (blocks : List Block) (id : String) : List Block :=
  blocks ++ [{ id := id, type := BlockType.TITLE,
               content := "1月份网络平台表扬表" }]

/-- `handleImageUpload` (`App.tsx` lines 78–95): image-typed files are
appended as new blocks through `setBlocksWithCount`. -/
def handleImageUpload (blocks : List Block) (files : List JsFile)
    (idGen : Nat → String) : List Block :=
  recalculateCounts (blocks ++ mkImageBlocks files idGen)

/-- `removeBlock` (`App.tsx` lines 118–120). -/
def removeBlock (blocks : List Block) (id : String) : List Block :=
  recalculateCounts (blocks.filter (fun b => ¬ b.id = id))

/-- `updateBlock` (`App.tsx` lines 114–116), specialised to the fields it
is called with; `upd` is the merge `{ ...b, ...updates }`. -/
def updateBlock (blocks : List Block) (id : String) (upd : Block → Block) :
    List Block :=
  blocks.map (fun b => if b.id = id then upd b else b)

/-- The clamp of the resize/crop gesture (`BlockRenderer.tsx` lines
64–75): both the live height during the drag and the height committed on
mouse-up are `Math.max(50, Math.min(startHeight + delta, fullImageHeight))`.
`startHeight` is the container's height at mouse-down, `delta` the vertical
pointer displacement, `fullImageHeight` the measured natural rendered
height of the image (with the source's `|| 1000` fallback already
applied). -/
def clampResize (startHeight delta fullImageHeight : Int) : Int :=
  max 50 (min (startHeight + delta) fullImageHeight)

/-- The `onUpdate(block.id, { height: finalHeight })` commit on mouse-up
(`BlockRenderer.tsx` line 77), expressed through `updateBlock`. -/
def commitResize (blocks : List Block) (id : String)
    (startHeight delta fullImageHeight : Int) : List Block :=
  updateBlock blocks id
    (fun b => { b with height := some (clampResize startHeight delta fullImageHeight) })

/-- The in-memory document state: the `blocks` and `margin` React states
of `App.tsx` (the spec's `spacingPixels`). -/
structure AppState where
  blocks : List Block
  margin : Int
  deriving DecidableEq

/-- The saved payload of `handleSaveProject` (`App.tsx` lines 175–179). -/
structure ProjectData where
  version : Nat
  margin : Int
  blocks : List Block
  deriving DecidableEq

/-- The per-block body of the `portableBlocks` map in `handleSaveProject`
(`App.tsx` lines 167–173): an image block's `content` is replaced by its
resolved self-contained data URL (`resolve` stands for the asynchronous
`blobUrlToBase64`); other blocks pass through. -/
def resolveImages (resolve : String → String) (b : Block) : Block :=
  if b.type = BlockType.IMAGE then { b with content := resolve b.content }
  else b

/-- `handleSaveProject` (`App.tsx` lines 165–188) up to JSON encoding. -/
def handleSaveProject (st : AppState) (resolve : String → String) :
    ProjectData :=
  { version := 1,
    margin := st.margin,
    blocks := st.blocks.map (resolveImages resolve) }

/-- What `JSON.parse` hands `handleLoadProject`: the fields the loader
looks at.  `blocks = none` covers a missing/falsy `blocks` field (also the
case of a payload that is not an object), `margin = none` an `undefined`
`margin`. -/
structure LoadedJson where
  blocks : Option (List Block)
  margin : Option Int
  deriving DecidableEq

/-- The outcome of `JSON.parse`: an exception or a parsed value. -/
inductive ParseResult where
  | fail
  | ok (json : LoadedJson)
  deriving DecidableEq

/-- `handleLoadProject` (`App.tsx` lines 190–210): on a parse exception
the `catch` shows an alert (the returned `Bool`) and the state is
untouched; otherwise a present `blocks` field replaces the block list
after `recalculateCounts`, and a present `margin` field replaces the
margin — each independently of the other. -/
def handleLoadProject (st : AppState) (r : ParseResult) :
    AppState × Bool :=
  match r with
  | ParseResult.fail => (st, true)
  | ParseResult.ok json =>
      let st1 :=
        match json.blocks with
        | some bs => { st with blocks := recalculateCounts bs }
        | none => st
      let st2 :=
        match json.margin with
        | some m => { st1 with margin := m }
        | none => st1
      (st2, false)

/-- `load(save(D))`: the saved payload is serialized and re-parsed
unchanged (JSON round-tripping of the payload is assumed faithful), so
the loader sees exactly the saved `blocks` and `margin`. -/
def loadOfSave (st : AppState) (resolve : String → String) :
    AppState × Bool :=
  handleLoadProject st
    (ParseResult.ok
      { blocks := some (handleSaveProject st resolve).blocks,
        margin := some (handleSaveProject st resolve).margin })

/-! ### Frame lemmas about `recalculateCounts` -/

theorem applyCount_id (c : String → Nat) (b : Block) :
    (applyCount c b).id = b.id := by
  simp only [applyCount]
  split
  · split <;> rfl
  · rfl

theorem applyCount_type (c : String → Nat) (b : Block) :
    (applyCount c b).type = b.type := by
  simp only [applyCount]
  split
  · split <;> rfl
  · rfl

theorem applyCount_content (c : String → Nat) (b : Block) :
    (applyCount c b).content = b.content := by
  simp only [applyCount]
  split
  · split <;> rfl
  · rfl

theorem applyCount_height (c : String → Nat) (b : Block) :
    (applyCount c b).height = b.height := by
  simp only [applyCount]
  split
  · split <;> rfl
  · rfl

theorem applyCount_of_not_textRow (c : String → Nat) (b : Block)
    (h : ¬ b.type = BlockType.TEXT_ROW) : applyCount c b = b := by
  simp only [applyCount, if_neg h]

theorem applyCount_of_textRow (c : String → Nat) (b : Block)
    (h : b.type = BlockType.TEXT_ROW) :
    applyCount c b = { b with subContent := some (formatCount (c b.id)) } := by
  simp only [applyCount, if_pos h]
  split
  · rfl
  · next hne =>
    rw [not_not] at hne
    cases b
    simp_all

theorem length_recalculateCounts (l : List Block) :
    (recalculateCounts l).length = l.length := by
  simp [recalculateCounts]

theorem countStep_congr (st : Option String × (String → Nat))
    {b b' : Block} (hid : b'.id = b.id) (hty : b'.type = b.type) :
    countStep st b' = countStep st b := by
  simp only [countStep, hid, hty]

theorem foldl_countStep_map (f : Block → Block)
    (hf : ∀ b : Block, (f b).id = b.id ∧ (f b).type = b.type)
    (st : Option String × (String → Nat)) (l : List Block) :
    (l.map f).foldl countStep st = l.foldl countStep st := by
  rw [List.foldl_map]
  have : (fun (s : Option String × (String → Nat)) (b : Block) =>
      countStep s (f b)) = countStep := by
    funext s b
    exact countStep_congr s (hf b).1 (hf b).2
  rw [this]

theorem countsOf_map_applyCount (c : String → Nat) (l : List Block) :
    countsOf (l.map (applyCount c)) = countsOf l := by
  unfold countsOf
  rw [foldl_countStep_map]
  intro b
  exact ⟨applyCount_id c b, applyCount_type c b⟩

theorem applyCount_applyCount (c : String → Nat) (b : Block) :
    applyCount c (applyCount c b) = applyCount c b := by
  by_cases hty : b.type = BlockType.TEXT_ROW
  · rw [applyCount_of_textRow c b hty]
    have hty' : (Block.mk b.id b.type b.content
        (some (formatCount (c b.id))) b.height).type = BlockType.TEXT_ROW := hty
    rw [applyCount_of_textRow c _ hty']
  · rw [applyCount_of_not_textRow c b hty]
    rw [applyCount_of_not_textRow c b hty]

theorem recalculateCounts_idem (l : List Block) :
    recalculateCounts (recalculateCounts l) = recalculateCounts l := by
  unfold recalculateCounts
  rw [countsOf_map_applyCount, List.map_map]
  apply List.map_congr_left
  intro b _
  exact applyCount_applyCount (countsOf l) b

/-! ### Drag/drop reorder claims -/

theorem insertIdx_eq_take_cons_drop (l : List Block) (n : Nat) (a : Block)
    (h : n ≤ l.length) :
    l.insertIdx n a = l.take n ++ a :: l.drop n := by
  induction l generalizing n with
  | nil =>
    have hn : n = 0 := Nat.le_zero.mp h
    subst hn
    rfl
  | cons x xs ih =>
    cases n with
    | zero => rfl
    | succ m =>
      simp only [List.insertIdx_succ_cons, List.take_succ_cons,
        List.drop_succ_cons, List.cons_append]
      rw [ih m (by simpa using h)]

/-- C1: an internal drop of the block at index `S` onto a different index
`T`, when not both endpoints are image blocks, removes the source block
and re-inserts it at `T - 1` (for `S < T`) or `T` (for `S > T`), keeping
every other block in its original relative order (erasing the moved block
from the result recovers the original list minus the source). -/
theorem internal_drop_insert_correct (blocks : List Block) (S T : Nat)
    (hS : S < blocks.length) (hT : T < blocks.length) (hne : S ≠ T)
    (hnoswap : ¬(blocks[S].type = BlockType.IMAGE ∧
      blocks[T].type = BlockType.IMAGE)) :
    blockDropInternalReorder blocks S T =
      (blocks.eraseIdx S).insertIdx (if S < T then T - 1 else T) blocks[S]
    ∧ (blockDropInternalReorder blocks S T).length = blocks.length
    ∧ (blockDropInternalReorder blocks S T).eraseIdx
        (if S < T then T - 1 else T) = blocks.eraseIdx S := by
  have hidx : (if S < T then T - 1 else T) ≤ (blocks.eraseIdx S).length := by
    rw [List.length_eraseIdx_of_lt hS]
    split <;> omega
  have hmain : blockDropInternalReorder blocks S T =
      (blocks.eraseIdx S).insertIdx (if S < T then T - 1 else T) blocks[S] := by
    unfold blockDropInternalReorder
    rw [List.get?_eq_getElem?, List.get?_eq_getElem?,
      List.getElem?_eq_getElem hS, List.getElem?_eq_getElem hT]
    simp only [if_neg hnoswap]
    rw [insertIdx_eq_take_cons_drop _ _ _ hidx, List.eraseIdx_eq_take_drop_succ]
    simp [spliceInsert, spliceRemoveOne]
  refine ⟨hmain, ?_, ?_⟩
  · rw [hmain, List.length_insertIdx _ _ hidx, List.length_eraseIdx_of_lt hS]
    omega
  · rw [hmain, List.eraseIdx_insertIdx]

/-- C2: an internal drop of the image block at index `i` onto the image
block at index `j ≠ i` exchanges exactly the blocks at positions `i` and
`j`, keeps the length, and leaves every other position untouched. -/
theorem internal_drop_swap_correct (blocks : List Block) (i j : Nat)
    (hi : i < blocks.length) (hj : j < blocks.length) (hne : i ≠ j)
    (hsrc : blocks[i].type = BlockType.IMAGE)
    (htgt : blocks[j].type = BlockType.IMAGE) :
    (blockDropInternalReorder blocks i j).length = blocks.length
    ∧ (blockDropInternalReorder blocks i j)[i]? = blocks[j]?
    ∧ (blockDropInternalReorder blocks i j)[j]? = blocks[i]?
    ∧ ∀ k : Nat, k ≠ i → k ≠ j →
        (blockDropInternalReorder blocks i j)[k]? = blocks[k]? := by
  have hred : blockDropInternalReorder blocks i j =
      (blocks.set i blocks[j]).set j blocks[i] := by
    unfold blockDropInternalReorder
    rw [List.get?_eq_getElem?, List.get?_eq_getElem?,
      List.getElem?_eq_getElem hi, List.getElem?_eq_getElem hj]
    simp only [hsrc, htgt, and_self, if_pos]
  rw [hred]
  refine ⟨by simp, ?_, ?_, ?_⟩
  · rw [List.getElem?_set_ne hne.symm, List.getElem?_set_self hi,
      List.getElem?_eq_getElem hj]
  · rw [List.getElem?_set_self (by simpa using hj)]
    rw [List.getElem?_eq_getElem hi]
  · intro k hki hkj
    rw [List.getElem?_set_ne (fun h => hkj h.symm),
      List.getElem?_set_ne (fun h => hki h.symm)]

/-! ### The counting pass computes per-text-row image counts -/

/-- `true` on blocks that do not end a counting segment. -/
def notTextRow (b : Block) : Bool :=
  decide (¬ b.type = BlockType.TEXT_ROW)

/-- `true` on image blocks. -/
def isImageBlock (b : Block) : Bool :=
  decide (b.type = BlockType.IMAGE)

/-- The number of image blocks occurring before the next text row. -/
def imagesBeforeNextText (l : List Block) : Nat :=
  (l.takeWhile notTextRow).countP isImageBlock

theorem imagesBeforeNextText_cons_textRow (x : Block) (xs : List Block)
    (h : x.type = BlockType.TEXT_ROW) :
    imagesBeforeNextText (x :: xs) = 0 := by
  simp [imagesBeforeNextText, List.takeWhile_cons, notTextRow, h]

theorem imagesBeforeNextText_cons_image (x : Block) (xs : List Block)
    (h : x.type = BlockType.IMAGE) :
    imagesBeforeNextText (x :: xs) = imagesBeforeNextText xs + 1 := by
  have hnt : ¬ x.type = BlockType.TEXT_ROW := by rw [h]; intro hc; cases hc
  simp [imagesBeforeNextText, List.takeWhile_cons, notTextRow, hnt,
    List.countP_cons, isImageBlock, h]

theorem imagesBeforeNextText_cons_title (x : Block) (xs : List Block)
    (h1 : ¬ x.type = BlockType.TEXT_ROW) (h2 : ¬ x.type = BlockType.IMAGE) :
    imagesBeforeNextText (x :: xs) = imagesBeforeNextText xs := by
  simp [imagesBeforeNextText, List.takeWhile_cons, notTextRow, h1,
    List.countP_cons, isImageBlock, h2]

/-- While the current text row is some other id (`cur ≠ some tid`) and no
later text row carries id `tid`, the fold never touches the counter of
`tid`. -/
theorem foldl_countStep_ne (l : List Block) (tid : String) :
    ∀ (cur : Option String) (c : String → Nat),
    (∀ x ∈ l, x.type = BlockType.TEXT_ROW → x.id ≠ tid) →
    cur ≠ some tid →
    (l.foldl countStep (cur, c)).2 tid = c tid := by
  induction l with
  | nil => intro cur c _ _; rfl
  | cons x xs ih =>
    intro cur c hl hcur
    have hxs : ∀ y ∈ xs, y.type = BlockType.TEXT_ROW → y.id ≠ tid :=
      fun y hy => hl y (List.mem_cons_of_mem x hy)
    rw [List.foldl_cons]
    by_cases hty : x.type = BlockType.TEXT_ROW
    · have hxid : x.id ≠ tid := hl x (List.mem_cons_self x xs) hty
      have hstep : countStep (cur, c) x =
          (some x.id, Function.update c x.id 0) := by
        simp [countStep, hty]
      rw [hstep, ih (some x.id) _ hxs (by simpa using hxid)]
      exact Function.update_noteq (fun h => hxid h.symm) 0 c
    · by_cases himg : x.type = BlockType.IMAGE
      · cases cur with
        | none =>
          have hstep : countStep ((none : Option String), c) x = (none, c) := by
            simp [countStep, hty, himg]
          rw [hstep]
          exact ih none c hxs (by simp)
        | some s =>
          have hs : s ≠ tid := fun h => hcur (by rw [h])
          by_cases hse : s = ""
          · have hstep : countStep (some s, c) x = (some s, c) := by
              simp [countStep, hty, himg, hse]
            rw [hstep]
            exact ih (some s) c hxs hcur
          · have hstep : countStep (some s, c) x =
                (some s, Function.update c s (c s + 1)) := by
              simp [countStep, hty, himg, hse]
            rw [hstep, ih (some s) _ hxs hcur]
            exact Function.update_noteq (fun h => hs h.symm) _ c
      · have hstep : countStep (cur, c) x = (cur, c) := by
          simp [countStep, hty, himg]
        rw [hstep]
        exact ih cur c hxs hcur

/-- While `tid` is the current text row id, the fold adds to its counter
exactly the number of images seen before the next text row. -/
theorem foldl_countStep_seg (l : List Block) (tid : String) :
    ∀ (c : String → Nat),
    tid ≠ "" →
    (∀ x ∈ l, x.type = BlockType.TEXT_ROW → x.id ≠ tid) →
    (l.foldl countStep (some tid, c)).2 tid =
      c tid + imagesBeforeNextText l := by
  induction l with
  | nil => intro c _ _; simp [imagesBeforeNextText]
  | cons x xs ih =>
    intro c htid hl
    have hxs : ∀ y ∈ xs, y.type = BlockType.TEXT_ROW → y.id ≠ tid :=
      fun y hy => hl y (List.mem_cons_of_mem x hy)
    rw [List.foldl_cons]
    by_cases hty : x.type = BlockType.TEXT_ROW
    · have hxid : x.id ≠ tid := hl x (List.mem_cons_self x xs) hty
      have hstep : countStep (some tid, c) x =
          (some x.id, Function.update c x.id 0) := by
        simp [countStep, hty]
      rw [hstep, imagesBeforeNextText_cons_textRow x xs hty,
        foldl_countStep_ne xs tid (some x.id) _ hxs (by simpa using hxid),
        Function.update_noteq (fun h => hxid h.symm) 0 c]
      omega
    · by_cases himg : x.type = BlockType.IMAGE
      · have hstep : countStep (some tid, c) x =
            (some tid, Function.update c tid (c tid + 1)) := by
          simp [countStep, hty, himg, htid]
        rw [hstep, ih _ htid hxs, Function.update_same,
          imagesBeforeNextText_cons_image x xs himg]
        omega
      · have hstep : countStep (some tid, c) x = (some tid, c) := by
          simp [countStep, hty, himg]
        rw [hstep, ih _ htid hxs,
          imagesBeforeNextText_cons_title x xs hty himg]

/-- The counter of the text row at index `i` ends up holding the number
of images between it and the next text row (given unique, non-empty
ids). -/
theorem countsOf_at_textRow (blocks : List Block) (i : Nat) (b : Block)
    (hib : blocks[i]? = some b) (hty : b.type = BlockType.TEXT_ROW)
    (hid : b.id ≠ "") (hnodup : (blocks.map Block.id).Nodup) :
    countsOf blocks b.id = imagesBeforeNextText (blocks.drop (i + 1)) := by
  obtain ⟨hi, hbi⟩ := List.getElem?_eq_some_iff.mp hib
  have hdecomp : blocks = blocks.take i ++ b :: blocks.drop (i + 1) := by
    conv_lhs => rw [← List.take_append_drop i blocks]
    rw [List.drop_eq_getElem_cons hi, hbi]
  have hnotin : ∀ x ∈ blocks.drop (i + 1),
      x.type = BlockType.TEXT_ROW → x.id ≠ b.id := by
    intro x hx _ hxid
    have hdisj : List.Disjoint ((blocks.take (i + 1)).map Block.id)
        ((blocks.drop (i + 1)).map Block.id) := by
      apply List.disjoint_of_nodup_append
      rw [← List.map_append, List.take_append_drop]
      exact hnodup
    have hbmem : b.id ∈ (blocks.take (i + 1)).map Block.id := by
      apply List.mem_map_of_mem
      rw [List.take_succ, hib]
      exact List.mem_append_right _ (by simp)
    have hxmem : b.id ∈ (blocks.drop (i + 1)).map Block.id := by
      rw [← hxid]
      exact List.mem_map_of_mem _ hx
    exact hdisj hbmem hxmem
  unfold countsOf
  conv_lhs => rw [hdecomp]
  rw [List.foldl_append, List.foldl_cons]
  have hstep : countStep ((blocks.take i).foldl countStep
        (none, fun _ => 0)) b =
      (some b.id, Function.update
        ((blocks.take i).foldl countStep (none, fun _ => 0)).2 b.id 0) := by
    simp [countStep, hty]
  rw [hstep, foldl_countStep_seg _ _ _ hid hnotin, Function.update_same]
  omega

/-! ### Claim theorems on recalculation, with concrete sample data -/

/-- Sample text row `A` of the spec scenario. -/
def sampleTextRowA : Block :=
  { id := "a", type := BlockType.TEXT_ROW, content := "A",
    subContent := some "stale" }

/-- Sample text row `B` of the spec scenario. -/
def sampleTextRowB : Block :=
  { id := "b", type := BlockType.TEXT_ROW, content := "B",
    subContent := some "好评9次" }

/-- The spec scenario `[TextRow A, Image, Image, TextRow B, Image]`. -/
def sampleBlocks : List Block :=
  [ sampleTextRowA,
    { id := "i1", type := BlockType.IMAGE, content := "u1" },
    { id := "i2", type := BlockType.IMAGE, content := "u2" },
    sampleTextRowB,
    { id := "i3", type := BlockType.IMAGE, content := "u3" } ]

/-- C3: derived field recalculation is idempotent on every sequence. -/
theorem recalculate_idempotent (S : List Block) :
    recalculateCounts (recalculateCounts S) = recalculateCounts S :=
  recalculateCounts_idem S

/-- C4: on a sequence with unique non-empty ids, recalculation gives the
text row at index `i` the formatted count of the images between it and
the next text row (images before the first text row are counted toward
no block, since they cannot lie between a text row and its successor). -/
theorem recalculate_sets_image_counts (blocks : List Block)
    (hnodup : (blocks.map Block.id).Nodup)
    (hids : ∀ b ∈ blocks, b.type = BlockType.TEXT_ROW → b.id ≠ "")
    (i : Nat) (b : Block) (hib : blocks[i]? = some b)
    (hty : b.type = BlockType.TEXT_ROW) :
    (recalculateCounts blocks)[i]? =
      some { b with
        subContent := some (formatCount (imagesBeforeNextText (blocks.drop (i + 1)))) } := by
  have hmem : b ∈ blocks := by
    obtain ⟨hi, hbi⟩ := List.getElem?_eq_some_iff.mp hib
    exact hbi ▸ List.getElem_mem hi
  have hid : b.id ≠ "" := hids b hmem hty
  have hcount := countsOf_at_textRow blocks i b hib hty hid hnodup
  rw [recalculateCounts, List.getElem?_map, hib, Option.map_some',
    applyCount_of_textRow _ b hty, hcount]

/-- Witness for C4: the spec scenario, with both text rows checked (`A`
gets count 2, `B` gets count 1). -/
theorem recalculate_sets_image_counts_witness :
    (sampleBlocks.map Block.id).Nodup
    ∧ sampleBlocks[0]? = some sampleTextRowA
    ∧ sampleTextRowA.type = BlockType.TEXT_ROW
    ∧ sampleBlocks[3]? = some sampleTextRowB
    ∧ (recalculateCounts sampleBlocks)[0]? =
        some { sampleTextRowA with subContent := some "好评2次" }
    ∧ (recalculateCounts sampleBlocks)[3]? =
        some { sampleTextRowB with subContent := some "好评1次" } :=
  ⟨by decide, by decide, by decide, by decide,
    (recalculate_sets_image_counts sampleBlocks (by decide) (by decide)
      0 sampleTextRowA (by decide) (by decide)).trans (by decide),
    (recalculate_sets_image_counts sampleBlocks (by decide) (by decide)
      3 sampleTextRowB (by decide) (by decide)).trans (by decide)⟩

/-- C10: recalculation changes at most the `subContent` of text rows —
length and order are kept, each position keeps its id, type, content and
height, non-text-row blocks are returned identically, and a text row
whose `subContent` already equals the computed annotation is returned as
the very same block. -/
theorem recalculate_frame (blocks : List Block) :
    (recalculateCounts blocks).length = blocks.length
    ∧ ∀ (i : Nat) (b : Block), blocks[i]? = some b →
      ∃ b' : Block, (recalculateCounts blocks)[i]? = some b'
        ∧ b'.id = b.id ∧ b'.type = b.type ∧ b'.content = b.content
        ∧ b'.height = b.height
        ∧ (¬ b.type = BlockType.TEXT_ROW → b' = b)
        ∧ (b.subContent = some (formatCount (countsOf blocks b.id)) →
            b' = b) := by
  refine ⟨length_recalculateCounts blocks, ?_⟩
  intro i b hib
  refine ⟨applyCount (countsOf blocks) b, ?_, applyCount_id _ b,
    applyCount_type _ b, applyCount_content _ b, applyCount_height _ b,
    applyCount_of_not_textRow _ b, ?_⟩
  · rw [recalculateCounts, List.getElem?_map, hib, Option.map_some']
  · intro hsub
    by_cases hty : b.type = BlockType.TEXT_ROW
    · rw [applyCount_of_textRow _ b hty, ← hsub]
    · exact applyCount_of_not_textRow _ b hty

/-- Witness for C10: the image at index 1 of the sample sequence comes
back identical, with all frame fields preserved. -/
theorem recalculate_frame_witness :
    sampleBlocks[1]? =
      some { id := "i1", type := BlockType.IMAGE, content := "u1" }
    ∧ (recalculateCounts sampleBlocks).length = sampleBlocks.length
    ∧ (recalculateCounts sampleBlocks)[1]? =
        some { id := "i1", type := BlockType.IMAGE, content := "u1" } := by
  refine ⟨by decide, (recalculate_frame sampleBlocks).1, ?_⟩
  obtain ⟨b', h1, -, -, -, -, h6, -⟩ :=
    (recalculate_frame sampleBlocks).2 1
      { id := "i1", type := BlockType.IMAGE, content := "u1" } (by decide)
  rw [h1, h6 (by decide)]

/-- Witness for C1: moving text row `A` (index 0) onto text row `B`
(index 3) re-inserts it at index 2, preserving the others. -/
theorem internal_drop_insert_correct_witness :
    ((0 : Nat) ≠ 3 ∧ 0 < sampleBlocks.length ∧ 3 < sampleBlocks.length)
    ∧ blockDropInternalReorder sampleBlocks 0 3 =
        (sampleBlocks.eraseIdx 0).insertIdx 2 sampleTextRowA
    ∧ (blockDropInternalReorder sampleBlocks 0 3).length = sampleBlocks.length
    ∧ (blockDropInternalReorder sampleBlocks 0 3).eraseIdx 2 =
        sampleBlocks.eraseIdx 0 := by
  have h := internal_drop_insert_correct sampleBlocks 0 3 (by decide) (by decide)
    (by decide) (by decide)
  exact ⟨⟨by decide, by decide, by decide⟩, h.1, h.2.1, h.2.2⟩

/-- Witness for C2: dropping the image at index 1 onto the image at
index 2 swaps exactly those two positions (spot-checked at positions 0
and 4 for the frame part). -/
theorem internal_drop_swap_correct_witness :
    ((1 : Nat) ≠ 2
      ∧ (sampleBlocks.get ⟨1, by decide⟩).type = BlockType.IMAGE
      ∧ (sampleBlocks.get ⟨2, by decide⟩).type = BlockType.IMAGE)
    ∧ (blockDropInternalReorder sampleBlocks 1 2).length = sampleBlocks.length
    ∧ (blockDropInternalReorder sampleBlocks 1 2)[1]? = sampleBlocks[2]?
    ∧ (blockDropInternalReorder sampleBlocks 1 2)[2]? = sampleBlocks[1]?
    ∧ (blockDropInternalReorder sampleBlocks 1 2)[0]? = sampleBlocks[0]?
    ∧ (blockDropInternalReorder sampleBlocks 1 2)[4]? = sampleBlocks[4]? := by
  have h := internal_drop_swap_correct sampleBlocks 1 2 (by decide) (by decide)
    (by decide) (by decide) (by decide)
  exact ⟨⟨by decide, by decide, by decide⟩, h.1, h.2.1, h.2.2.1,
    h.2.2.2 0 (by decide) (by decide), h.2.2.2 4 (by decide) (by decide)⟩

/-! ### Resolution, append and frame lemmas used by C5/C6/C9 -/

theorem resolveImages_id (r : String → String) (b : Block) :
    (resolveImages r b).id = b.id := by
  simp only [resolveImages]
  split <;> rfl

theorem resolveImages_type (r : String → String) (b : Block) :
    (resolveImages r b).type = b.type := by
  simp only [resolveImages]
  split <;> rfl

theorem resolveImages_height (r : String → String) (b : Block) :
    (resolveImages r b).height = b.height := by
  simp only [resolveImages]
  split <;> rfl

theorem resolveImages_subContent (r : String → String) (b : Block) :
    (resolveImages r b).subContent = b.subContent := by
  simp only [resolveImages]
  split <;> rfl

theorem resolveImages_content (r : String → String) (b : Block) :
    (resolveImages r b).content =
      if b.type = BlockType.IMAGE then r b.content else b.content := by
  simp only [resolveImages]
  split <;> rfl

theorem countsOf_map_resolveImages (r : String → String) (l : List Block) :
    countsOf (l.map (resolveImages r)) = countsOf l := by
  unfold countsOf
  rw [foldl_countStep_map]
  intro b
  exact ⟨resolveImages_id r b, resolveImages_type r b⟩

theorem applyCount_resolveImages (c : String → Nat) (r : String → String)
    (b : Block) :
    applyCount c (resolveImages r b) = resolveImages r (applyCount c b) := by
  by_cases himg : b.type = BlockType.IMAGE
  · have hty : ¬ b.type = BlockType.TEXT_ROW := by
      rw [himg]; intro hc; cases hc
    rw [applyCount_of_not_textRow c b hty]
    apply applyCount_of_not_textRow
    rw [resolveImages_type r b]
    exact hty
  · rw [show resolveImages r b = b from by simp [resolveImages, himg]]
    rw [show resolveImages r (applyCount c b) = applyCount c b from by
      simp only [resolveImages]
      rw [if_neg (by rw [applyCount_type]; exact himg)]]

/-- Resolving image contents commutes with recalculation. -/
theorem recalculateCounts_map_resolveImages (r : String → String)
    (l : List Block) :
    recalculateCounts (l.map (resolveImages r)) =
      (recalculateCounts l).map (resolveImages r) := by
  unfold recalculateCounts
  rw [countsOf_map_resolveImages, List.map_map, List.map_map]
  apply List.map_congr_left
  intro b _
  exact applyCount_resolveImages (countsOf l) r b

/-- Appending a block that is neither a text row nor an image (a title)
commutes with recalculation. -/
theorem recalculateCounts_append_title (blocks : List Block) (t : Block)
    (h1 : ¬ t.type = BlockType.TEXT_ROW) (h2 : ¬ t.type = BlockType.IMAGE) :
    recalculateCounts (blocks ++ [t]) = recalculateCounts blocks ++ [t] := by
  have hcounts : countsOf (blocks ++ [t]) = countsOf blocks := by
    unfold countsOf
    rw [List.foldl_append, List.foldl_cons, List.foldl_nil]
    have hstep : countStep (blocks.foldl countStep (none, fun _ => 0)) t =
        blocks.foldl countStep (none, fun _ => 0) := by
      rcases hst : (blocks.foldl countStep (none, fun _ => 0)) with ⟨cur, c⟩
      cases cur with
      | none => simp [countStep, h1, h2]
      | some s => simp [countStep, h1, h2]
    rw [hstep]
  unfold recalculateCounts
  rw [hcounts, List.map_append]
  congr 1
  simp only [List.map_cons, List.map_nil]
  rw [applyCount_of_not_textRow _ t h1]

/-- The fields of a block that recalculation never changes. -/
def frameOf (b : Block) : String × BlockType × String × Option Int :=
  (b.id, b.type, b.content, b.height)

/-- Recalculation preserves the frame of every position. -/
theorem map_frameOf_recalculateCounts (l : List Block) :
    (recalculateCounts l).map frameOf = l.map frameOf := by
  unfold recalculateCounts
  rw [List.map_map]
  apply List.map_congr_left
  intro b _
  simp only [Function.comp_apply, frameOf, applyCount_id, applyCount_type,
    applyCount_content, applyCount_height]

/-! ### C5: which mutations re-run recalculation -/

/-- Counterexample to C5 as stated: `addTitleRow` changes block
membership through plain `setBlocks` without re-running recalculation, so
starting from a state whose text row carries a user-edited `subContent`,
the sequence right after adding a title is not a recalculation fixpoint
(recalculation would overwrite `"hello"` with `"好评0次"`). -/
theorem addTitleRow_not_recalculated :
    addTitleRow
        [{ id := "a", type := BlockType.TEXT_ROW, content := "x",
           subContent := some "hello" }] "t"
      ≠ recalculateCounts (addTitleRow
        [{ id := "a", type := BlockType.TEXT_ROW, content := "x",
           subContent := some "hello" }] "t") := by
  decide

/-- C5 as amended: every membership- or order-changing operation other
than `addTitleRow` routes through `setBlocksWithCount`, so its result is
a `recalculateCounts` fixpoint; `addTitleRow` does not re-run the pass,
and its result is a fixpoint only when the previous sequence already was
one (which appending a title preserves). -/
theorem mutations_recalculated (blocks : List Block) (files : List JsFile)
    (idGen : Nat → String) (id : String) (S T dropIndex : Nat)
    (st : AppState) (json : LoadedJson) (bs : List Block) :
    recalculateCounts (handleImageUpload blocks files idGen) =
      handleImageUpload blocks files idGen
    ∧ recalculateCounts (addTextRow blocks id) = addTextRow blocks id
    ∧ recalculateCounts (removeBlock blocks id) = removeBlock blocks id
    ∧ (S ≠ T → recalculateCounts (handleBlockDropInternal blocks S T) =
        handleBlockDropInternal blocks S T)
    ∧ (¬ (mkImageBlocks files idGen).isEmpty →
        recalculateCounts (handleBlockDropExternal blocks dropIndex files idGen) =
          handleBlockDropExternal blocks dropIndex files idGen)
    ∧ (¬ (mkImageBlocks files idGen).isEmpty →
        recalculateCounts (handleContainerDropExternal blocks files idGen) =
          handleContainerDropExternal blocks files idGen)
    ∧ recalculateCounts (handleContainerDropInternal blocks S) =
        handleContainerDropInternal blocks S
    ∧ (json.blocks = some bs →
        (handleLoadProject st (ParseResult.ok json)).1.blocks =
          recalculateCounts bs)
    ∧ (recalculateCounts blocks = blocks →
        recalculateCounts (addTitleRow blocks id) = addTitleRow blocks id) := by
  refine ⟨recalculateCounts_idem _, recalculateCounts_idem _,
    recalculateCounts_idem _, ?_, ?_, ?_, ?_, ?_, ?_⟩
  · intro hne
    rw [handleBlockDropInternal, if_neg hne]
    exact recalculateCounts_idem _
  · intro hne
    rw [handleBlockDropExternal]
    simp only [if_neg hne]
    exact recalculateCounts_idem _
  · intro hne
    rw [handleContainerDropExternal]
    simp only [if_neg hne]
    exact recalculateCounts_idem _
  · rw [handleContainerDropInternal]
    rcases blocks.get? S with _ | b
    · exact recalculateCounts_idem _
    · exact recalculateCounts_idem _
  · intro hbs
    rw [handleLoadProject]
    simp only [hbs]
    rcases json.margin with _ | m <;> rfl
  · intro hfix
    rw [addTitleRow, recalculateCounts_append_title _ _ (by intro h; cases h)
      (by intro h; cases h), hfix]

/-- Witness for C5 (amended): all operations instantiated on a concrete
recalculated one-text-row document, plus a load of the sample scenario. -/
theorem mutations_recalculated_witness :
    recalculateCounts (handleImageUpload
        [{ id := "a", type := BlockType.TEXT_ROW, content := "A",
           subContent := some "好评0次" }]
        [⟨"image/png", "p"⟩] (fun _ => "f0")) =
      handleImageUpload
        [{ id := "a", type := BlockType.TEXT_ROW, content := "A",
           subContent := some "好评0次" }]
        [⟨"image/png", "p"⟩] (fun _ => "f0")
    ∧ ((0 : Nat) ≠ 3 ∧ recalculateCounts (handleBlockDropInternal
        [{ id := "a", type := BlockType.TEXT_ROW, content := "A",
           subContent := some "好评0次" }] 0 3) =
        handleBlockDropInternal
        [{ id := "a", type := BlockType.TEXT_ROW, content := "A",
           subContent := some "好评0次" }] 0 3)
    ∧ (¬ (mkImageBlocks [⟨"image/png", "p"⟩] (fun _ => "f0")).isEmpty
        ∧ recalculateCounts (handleBlockDropExternal
            [{ id := "a", type := BlockType.TEXT_ROW, content := "A",
               subContent := some "好评0次" }] 1
            [⟨"image/png", "p"⟩] (fun _ => "f0")) =
          handleBlockDropExternal
            [{ id := "a", type := BlockType.TEXT_ROW, content := "A",
               subContent := some "好评0次" }] 1
            [⟨"image/png", "p"⟩] (fun _ => "f0"))
    ∧ (handleLoadProject ⟨[], 5⟩
        (ParseResult.ok ⟨some sampleBlocks, some 7⟩)).1.blocks =
        recalculateCounts sampleBlocks
    ∧ (recalculateCounts
        [{ id := "a", type := BlockType.TEXT_ROW, content := "A",
           subContent := some "好评0次" }] =
        [{ id := "a", type := BlockType.TEXT_ROW, content := "A",
           subContent := some "好评0次" }]
      ∧ recalculateCounts (addTitleRow
          [{ id := "a", type := BlockType.TEXT_ROW, content := "A",
             subContent := some "好评0次" }] "t2") =
        addTitleRow
          [{ id := "a", type := BlockType.TEXT_ROW, content := "A",
             subContent := some "好评0次" }] "t2") := by
  have h := mutations_recalculated
    [{ id := "a", type := BlockType.TEXT_ROW, content := "A",
       subContent := some "好评0次" }]
    [⟨"image/png", "p"⟩] (fun _ => "f0") "t2" 0 3 1
    ⟨[], 5⟩ ⟨some sampleBlocks, some 7⟩ sampleBlocks
  exact ⟨h.1, ⟨by decide, h.2.2.2.1 (by decide)⟩,
    ⟨by decide, h.2.2.2.2.1 (by decide)⟩,
    h.2.2.2.2.2.2.2.1 rfl,
    ⟨by decide, h.2.2.2.2.2.2.2.2 (by decide)⟩⟩

/-! ### C6: save/load round trip -/

/-- Counterexample to C6 as stated: loading immediately re-runs
recalculation, so a user-edited `subContent` (`"hello"`) does not survive
`load(save(D))` — it is overwritten with the derived `"好评0次"`, even
with no image involved and the identity resolver. -/
theorem load_save_subContent_cex :
    (loadOfSave
        ⟨[{ id := "a", type := BlockType.TEXT_ROW, content := "x",
            subContent := some "hello" }], 5⟩ (fun s => s)).1.blocks
      ≠ [{ id := "a", type := BlockType.TEXT_ROW, content := "x",
           subContent := some "hello" }] := by
  decide

/-- C6 as amended: `load(save(D))` keeps the margin, the block count, and
every block's id, type, main content (with image contents replaced by
their resolved form) and height, in order; `subContent` of non-text-rows
survives, and the whole document survives exactly (up to image
resolution) precisely when its annotations were already recalculated —
a text row's stale `subContent` is re-derived by the load-time
recalculation. -/
theorem load_save_round_trip (st : AppState) (resolve : String → String) :
    (loadOfSave st resolve).1.margin = st.margin
    ∧ (loadOfSave st resolve).2 = false
    ∧ ((loadOfSave st resolve).1.blocks).length = st.blocks.length
    ∧ (loadOfSave st resolve).1.blocks.map frameOf =
        (st.blocks.map (resolveImages resolve)).map frameOf
    ∧ (∀ (i : Nat) (b : Block), st.blocks[i]? = some b →
        ∃ b' : Block, (loadOfSave st resolve).1.blocks[i]? = some b'
          ∧ b'.id = b.id ∧ b'.type = b.type ∧ b'.height = b.height
          ∧ b'.content =
              (if b.type = BlockType.IMAGE then resolve b.content
               else b.content)
          ∧ (¬ b.type = BlockType.TEXT_ROW →
              b'.subContent = b.subContent))
    ∧ (recalculateCounts st.blocks = st.blocks →
        (loadOfSave st resolve).1.blocks =
          st.blocks.map (resolveImages resolve)) := by
  have hblocks : (loadOfSave st resolve).1.blocks =
      recalculateCounts (st.blocks.map (resolveImages resolve)) := rfl
  refine ⟨rfl, rfl, ?_, ?_, ?_, ?_⟩
  · rw [hblocks, length_recalculateCounts, List.length_map]
  · rw [hblocks, map_frameOf_recalculateCounts]
  · intro i b hib
    refine ⟨applyCount (countsOf (st.blocks.map (resolveImages resolve)))
      (resolveImages resolve b), ?_, ?_, ?_, ?_, ?_, ?_⟩
    · rw [hblocks, recalculateCounts, List.getElem?_map, List.getElem?_map,
        hib, Option.map_some', Option.map_some']
    · rw [applyCount_id, resolveImages_id]
    · rw [applyCount_type, resolveImages_type]
    · rw [applyCount_height, resolveImages_height]
    · rw [applyCount_content, resolveImages_content]
    · intro hty
      rw [applyCount_of_not_textRow _ _ (by rw [resolveImages_type]; exact hty),
        resolveImages_subContent]
  · intro hfix
    rw [hblocks, recalculateCounts_map_resolveImages, hfix]

/-- Witness for C6: a recalculated two-block document (text row and
image) with a concrete resolver prefixing `"data:"`. -/
theorem load_save_round_trip_witness :
    (loadOfSave
        ⟨[{ id := "a", type := BlockType.TEXT_ROW, content := "A",
            subContent := some "好评1次" },
          { id := "i1", type := BlockType.IMAGE, content := "u1" }], 5⟩
        (fun s => "data:" ++ s)).1.margin = 5
    ∧ (loadOfSave
        ⟨[{ id := "a", type := BlockType.TEXT_ROW, content := "A",
            subContent := some "好评1次" },
          { id := "i1", type := BlockType.IMAGE, content := "u1" }], 5⟩
        (fun s => "data:" ++ s)).1.blocks.map Block.subContent =
        [some "好评1次", none]
    ∧ (loadOfSave
        ⟨[{ id := "a", type := BlockType.TEXT_ROW, content := "A",
            subContent := some "好评1次" },
          { id := "i1", type := BlockType.IMAGE, content := "u1" }], 5⟩
        (fun s => "data:" ++ s)).1.blocks =
        [{ id := "a", type := BlockType.TEXT_ROW, content := "A",
           subContent := some "好评1次" },
         { id := "i1", type := BlockType.IMAGE, content := "data:u1" }] := by
  have h := load_save_round_trip
    ⟨[{ id := "a", type := BlockType.TEXT_ROW, content := "A",
        subContent := some "好评1次" },
      { id := "i1", type := BlockType.IMAGE, content := "u1" }], 5⟩
    (fun s => "data:" ++ s)
  obtain ⟨b', h1, -, -, -, -, hs⟩ := h.2.2.2.2.1 1
    { id := "i1", type := BlockType.IMAGE, content := "u1" } (by decide)
  have hsub : b'.subContent = none := hs (by decide)
  have hmap : (loadOfSave
      ⟨[{ id := "a", type := BlockType.TEXT_ROW, content := "A",
          subContent := some "好评1次" },
        { id := "i1", type := BlockType.IMAGE, content := "u1" }], 5⟩
      (fun s => "data:" ++ s)).1.blocks =
      [{ id := "a", type := BlockType.TEXT_ROW, content := "A",
         subContent := some "好评1次" },
       { id := "i1", type := BlockType.IMAGE, content := "data:u1" }] :=
    (h.2.2.2.2.2 (by decide)).trans (by decide)
  refine ⟨h.1, ?_, hmap⟩
  rw [hmap]
  rfl

/-! ### C7: load error handling -/

/-- Counterexample to C7 as stated: a payload that parses but has no
`blocks` field raises no user-facing notice (`alert` only fires on a
parse exception) and still applies a present `margin` field, so the
in-memory Document is not left unchanged. -/
theorem load_missing_blocks_cex :
    (handleLoadProject ⟨[], 5⟩ (ParseResult.ok ⟨none, some 20⟩)).2 = false
    ∧ (handleLoadProject ⟨[], 5⟩ (ParseResult.ok ⟨none, some 20⟩)).1.margin
        ≠ 5 := by
  decide

/-- C7 as amended: a parse failure alerts and leaves the whole state
unchanged; a parsed payload never alerts; a present `blocks` field
replaces the block list wholesale with its recalculation; a missing
`blocks` field leaves the block list unchanged but a present `margin`
field is still applied, and a missing `margin` field leaves the margin
unchanged. -/
theorem load_project_behavior (st : AppState) (json : LoadedJson)
    (bs : List Block) (m : Int) :
    handleLoadProject st ParseResult.fail = (st, true)
    ∧ (handleLoadProject st (ParseResult.ok json)).2 = false
    ∧ (json.blocks = some bs →
        (handleLoadProject st (ParseResult.ok json)).1.blocks =
          recalculateCounts bs)
    ∧ (json.blocks = none →
        (handleLoadProject st (ParseResult.ok json)).1.blocks = st.blocks)
    ∧ (json.margin = some m →
        (handleLoadProject st (ParseResult.ok json)).1.margin = m)
    ∧ (json.margin = none →
        (handleLoadProject st (ParseResult.ok json)).1.margin = st.margin) := by
  refine ⟨rfl, rfl, ?_, ?_, ?_, ?_⟩
  · intro hbs
    rw [handleLoadProject]
    simp only [hbs]
    rcases json.margin with _ | m2 <;> rfl
  · intro hbs
    rw [handleLoadProject]
    simp only [hbs]
    rcases json.margin with _ | m2 <;> rfl
  · intro hm
    rw [handleLoadProject]
    simp only [hm]
  · intro hm
    rw [handleLoadProject]
    simp only [hm]
    cases hb : json.blocks <;> simp [hb]

/-- Witness for C7 (amended): a failing parse, and a successful parse of
the sample payload. -/
theorem load_project_behavior_witness :
    handleLoadProject ⟨sampleBlocks, 5⟩ ParseResult.fail =
      (⟨sampleBlocks, 5⟩, true)
    ∧ (handleLoadProject ⟨sampleBlocks, 5⟩
        (ParseResult.ok ⟨some sampleBlocks, some 7⟩)).2 = false
    ∧ (handleLoadProject ⟨sampleBlocks, 5⟩
        (ParseResult.ok ⟨some sampleBlocks, some 7⟩)).1.blocks =
        recalculateCounts sampleBlocks
    ∧ (handleLoadProject ⟨sampleBlocks, 5⟩
        (ParseResult.ok ⟨some sampleBlocks, some 7⟩)).1.margin = 7 := by
  have h := load_project_behavior ⟨sampleBlocks, 5⟩
    ⟨some sampleBlocks, some 7⟩ sampleBlocks 7
  exact ⟨h.1, h.2.1, h.2.2.1 rfl, h.2.2.2.2.1 rfl⟩

/-! ### C8: resize/crop clamping -/

/-- Counterexample to C8 as stated: for an image whose natural rendered
height is 30 (below the 50-pixel minimum), a drag requesting height 10
commits `max 50 (min 10 30) = 50`, which exceeds the natural rendered
height — the committed value does not satisfy
`50 ≤ cropHeight ≤ naturalRenderedHeight`. -/
theorem resize_clamp_cex :
    ¬ (50 ≤ clampResize 10 0 30 ∧ clampResize 10 0 30 ≤ 30) := by
  decide

/-- C8 as amended: for every drag, the committed (and live) height is at
least 50 and at most `max 50 naturalRenderedHeight`; whenever the image
is at least 50 pixels tall the claimed two-sided clamp
`50 ≤ cropHeight ≤ naturalRenderedHeight` holds, and the committed
block stores exactly this clamped value. -/
theorem resize_clamp_bounds (startHeight delta fullImageHeight : Int)
    (blocks : List Block) (id : String) :
    50 ≤ clampResize startHeight delta fullImageHeight
    ∧ clampResize startHeight delta fullImageHeight ≤
        max 50 fullImageHeight
    ∧ (50 ≤ fullImageHeight →
        clampResize startHeight delta fullImageHeight ≤ fullImageHeight)
    ∧ commitResize blocks id startHeight delta fullImageHeight =
        blocks.map (fun b => if b.id = id then
          { b with
            height := some (clampResize startHeight delta fullImageHeight) }
          else b) := by
  refine ⟨?_, ?_, ?_, rfl⟩
  · exact le_max_left _ _
  · simp only [clampResize]
    omega
  · intro h50
    simp only [clampResize]
    omega

/-- Witness for C8: a 400-pixel-tall image dragged far downward commits
exactly 400, within the claimed bounds. -/
theorem resize_clamp_bounds_witness :
    (50 : Int) ≤ 400
    ∧ 50 ≤ clampResize 200 300 400
    ∧ clampResize 200 300 400 ≤ max 50 400
    ∧ clampResize 200 300 400 ≤ 400
    ∧ commitResize
        [{ id := "i1", type := BlockType.IMAGE, content := "u1" }] "i1"
        200 300 400 =
      [{ id := "i1", type := BlockType.IMAGE, content := "u1",
         height := some 400 }] := by
  have h := resize_clamp_bounds 200 300 400
    [{ id := "i1", type := BlockType.IMAGE, content := "u1" }] "i1"
  exact ⟨by decide, h.1, h.2.1, h.2.2.1 (by decide),
    h.2.2.2.trans (by decide)⟩

/-! ### C9: external file drops -/

/-- Counterexample to C9 as stated: not every dropped file becomes an
image block — a single non-image file (`text/plain`) dropped at index 0
of the empty sequence yields 0 blocks, not 1. -/
theorem external_drop_nonimage_cex :
    ¬ (handleBlockDropExternal [] 0 [⟨"text/plain", "u"⟩]
        (fun _ => "n0")).length = 1 := by
  decide

/-- C9 as amended: each dropped file whose MIME type is an image becomes
a new image block (non-image files are ignored); the new blocks are
spliced in starting at index `T` in file order (appended at the end for a
container/background drop), and every surviving block keeps its id, type,
content and height in the spliced order. -/
theorem external_drop_splices_image_files (blocks : List Block) (T : Nat)
    (files : List JsFile) (idGen : Nat → String)
    (hne : ¬ (mkImageBlocks files idGen).isEmpty) :
    (handleBlockDropExternal blocks T files idGen).map frameOf =
      (blocks.take T ++ mkImageBlocks files idGen ++ blocks.drop T).map
        frameOf
    ∧ (T ≤ blocks.length →
        (handleBlockDropExternal blocks T files idGen).length =
          blocks.length + (files.filter isImageFile).length)
    ∧ (handleContainerDropExternal blocks files idGen).map frameOf =
        (blocks ++ mkImageBlocks files idGen).map frameOf
    ∧ (mkImageBlocks files idGen).length =
        (files.filter isImageFile).length := by
  have hlen : (mkImageBlocks files idGen).length =
      (files.filter isImageFile).length := by
    rw [mkImageBlocks, List.length_map, List.enum_length]
  refine ⟨?_, ?_, ?_, hlen⟩
  · rw [handleBlockDropExternal]
    simp only [if_neg hne]
    rw [map_frameOf_recalculateCounts, spliceInsert]
  · intro hT
    rw [handleBlockDropExternal]
    simp only [if_neg hne]
    rw [length_recalculateCounts, spliceInsert]
    simp only [List.length_append, List.length_take, List.length_drop]
    rw [hlen] at *
    omega
  · rw [handleContainerDropExternal]
    simp only [if_neg hne]
    rw [map_frameOf_recalculateCounts]

/-- Witness for C9 (amended): the spec scenario — two image files dropped
at index 1 of a three-block sequence yield five blocks with the new
image blocks at positions 1 and 2 and the originals at 0, 3 and 4. -/
theorem external_drop_splices_image_files_witness :
    ¬ (mkImageBlocks [⟨"image/png", "p"⟩, ⟨"image/jpeg", "q"⟩]
        (fun n => "n" ++ toString n)).isEmpty
    ∧ (handleBlockDropExternal
        [{ id := "x", type := BlockType.TITLE, content := "t" },
         { id := "y", type := BlockType.TITLE, content := "t2" },
         { id := "z", type := BlockType.TITLE, content := "t3" }] 1
        [⟨"image/png", "p"⟩, ⟨"image/jpeg", "q"⟩]
        (fun n => "n" ++ toString n)).map frameOf =
      [("x", BlockType.TITLE, "t", none),
       ("n0", BlockType.IMAGE, "p", none),
       ("n1", BlockType.IMAGE, "q", none),
       ("y", BlockType.TITLE, "t2", none),
       ("z", BlockType.TITLE, "t3", none)]
    ∧ (handleBlockDropExternal
        [{ id := "x", type := BlockType.TITLE, content := "t" },
         { id := "y", type := BlockType.TITLE, content := "t2" },
         { id := "z", type := BlockType.TITLE, content := "t3" }] 1
        [⟨"image/png", "p"⟩, ⟨"image/jpeg", "q"⟩]
        (fun n => "n" ++ toString n)).length = 3 + 2 := by
  have h := external_drop_splices_image_files
    [{ id := "x", type := BlockType.TITLE, content := "t" },
     { id := "y", type := BlockType.TITLE, content := "t2" },
     { id := "z", type := BlockType.TITLE, content := "t3" }] 1
    [⟨"image/png", "p"⟩, ⟨"image/jpeg", "q"⟩]
    (fun n => "n" ++ toString n) (by decide)
  exact ⟨by decide, h.1.trans (by decide),
    (h.2.1 (by decide)).trans (by decide)⟩

end LayoutEditor
